import Mathlib

/-!
Shallow embedding of the equity risk library (`risk_metrics.py`, `data_loader.py`).

Conventions of the embedding:
* Floating-point values are modelled as exact rationals (`ℚ`); the one place
  where a square root is taken (`compute_sharpe_ratio`, via `pandas.Series.std`)
  is modelled over `ℝ`.
* Date-indexed pandas Series are modelled as `List (Nat × ℚ)` (date key, value),
  and date-indexed price/return tables as `List (Nat × List (Option ℚ))`
  (date key, one optional cell per asset column; `none` models `NaN`).
  Per the data-model invariant, date keys are unique and increasing, so the
  pandas inner join realised by `pd.concat(..., axis=1).dropna()` is modelled
  as a lookup-based join that keeps the left argument's order.
* Exceptions (`raise ValueError(...)` at the various sites) are modelled by
  `Except RiskError`, with one `RiskError` constructor per distinct error site.
* `numpy`/`pandas` reductions are modelled with their documented divisors:
  `np.cov` uses divisor `N - 1` (sample), `np.var` divisor `N` (population),
  `pandas` `.cov`/`.var`/`.std` divisor `N - 1` (sample).
* `DataFrame.pct_change()` is modelled with no forward-filling
  (`fill_method=None`, the current pandas default): a return cell is defined
  only when the prices at both of its two consecutive dates are present.
-/

/-- Error kinds of the library, one constructor per distinct `raise` site
(plus the numpy failure on an empty percentile input). -/
inductive RiskError where
  /-- Raised in `__init__`: "Number of weights must match number of tickers." -/
  | configurationError
  /-- Raised in `compute_beta` and `compute_tracking_error`: benchmark missing. -/
  | benchmarkRequired
  /-- Raised in `compute_marginal_var`: "Asset returns must have the same
  length as portfolio returns." -/
  | lengthMismatch
  /-- Failure of `np.percentile` applied to an empty array. -/
  | emptyPercentile
  /-- Error kind named by the specification for zero-variance inputs; the
  source has no raise site of this kind. -/
  | insufficientData
  deriving DecidableEq, Repr

/-- Mean of a list of values, as in `pandas.Series.mean` (`sum / n`). -/
def listMean (xs : List ℚ) : ℚ := xs.sum / xs.length

/-- Population variance (divisor `N`), as in `np.var` with default `ddof=0`. -/
def popVar (xs : List ℚ) : ℚ :=
  ((xs.map (fun x => (x - listMean xs) ^ 2)).sum) / xs.length

/-- Sample variance (divisor `N - 1`), as in `pandas.Series.var` with default `ddof=1`. -/
def sampleVar (xs : List ℚ) : ℚ :=
  ((xs.map (fun x => (x - listMean xs) ^ 2)).sum) / ((xs.length : ℚ) - 1)

/-- Sample covariance (divisor `N - 1`), as in `np.cov(x, y)[0, 1]` with default
`ddof=1`, and as in `pandas.DataFrame.cov`. -/
def sampleCov (xs ys : List ℚ) : ℚ :=
  (List.zipWith (fun x y => (x - listMean xs) * (y - listMean ys)) xs ys).sum /
    ((xs.length : ℚ) - 1)

/-- Population covariance (divisor `N`). Modelled from the spec: this is the
"population covariance (divisor N, not N-1)" that the specification says
`compute_beta` uses; it is stated here only to be compared with the source's
actual estimator. -/
def popCov (xs ys : List ℚ) : ℚ :=
  (List.zipWith (fun x y => (x - listMean xs) * (y - listMean ys)) xs ys).sum /
    (xs.length : ℚ)

/-- Insert a value into an ascending sorted list, keeping it sorted. -/
def insertAsc (x : ℚ) : List ℚ → List ℚ
  | [] => [x]
  | y :: ys => if x ≤ y then x :: y :: ys else y :: insertAsc x ys

/-- Ascending sort of a list of values, modelling `np.sort` (the order produced
is all that matters for the percentile; any comparison sort agrees). -/
def sortAsc : List ℚ → List ℚ
  | [] => []
  | x :: xs => insertAsc x (sortAsc xs)

/-- Linear-interpolation percentile of `np.percentile(xs, q)` (default
`method="linear"`): with the data sorted ascending and virtual index
`h = (n - 1) * q / 100`, the result is
`a[⌊h⌋] + (h - ⌊h⌋) * (a[min (⌊h⌋ + 1) (n - 1)] - a[⌊h⌋])`. -/
def percentileLinear (xs : List ℚ) (q : ℚ) : ℚ :=
  let s := sortAsc xs
  let n := s.length
  if n = 0 then 0
  else
    let h : ℚ := (n - 1 : ℚ) * q / 100
    let i : ℕ := ⌊h⌋.toNat
    let lo := s.getD i 0
    let hi := s.getD (min (i + 1) (n - 1)) 0
    lo + (h - i) * (hi - lo)

/-- Embedding of `RiskMetrics.compute_var`: historical VaR as
`np.percentile(portfolio_returns, (1 - confidence_level) * 100)`.
`np.percentile` fails on an empty input, modelled as `emptyPercentile`. -/
def computeVar (rs : List ℚ) (confidenceLevel : ℚ) : Except RiskError ℚ :=
  if rs.isEmpty then .error .emptyPercentile
  else .ok (percentileLinear rs ((1 - confidenceLevel) * 100))

/-- Value of a date-indexed series at a date key, `none` when the date is
absent (models positional lookup in a pandas index, which is unique by the
data-model invariant). -/
def lookupDate (s : List (Nat × ℚ)) (d : Nat) : Option ℚ :=
  (s.find? (fun p => p.1 == d)).map Prod.snd

/-- Pairwise date alignment of two series, modelling
`pd.concat([p, b], axis=1).dropna()`: keep exactly the dates present in both
series (in `p`'s order, which is the sorted order under the increasing-dates
invariant), pairing the two values. -/
def alignSeries (p b : List (Nat × ℚ)) : List (ℚ × ℚ) :=
  p.filterMap (fun x => (lookupDate b x.1).map (fun y => (x.2, y)))

/-- Embedding of `RiskMetrics.compute_beta`: after the benchmark presence check
and date alignment, the result is `np.cov(p, b)[0, 1] / np.var(b)`, i.e. the
sample covariance (divisor `N - 1`) over the population variance (divisor `N`)
of the aligned columns. -/
def computeBeta (p : List (Nat × ℚ)) (b : Option (List (Nat × ℚ))) :
    Except RiskError ℚ :=
  match b with
  | none => .error .benchmarkRequired
  | some bs =>
    let al := alignSeries p bs
    .ok (sampleCov (al.map Prod.fst) (al.map Prod.snd) / popVar (al.map Prod.snd))

/-- Embedding of `RiskMetrics.compute_sharpe_ratio`:
`(mean(returns) - risk_free_rate / 252) / returns.std()` where `.std()` is the
square root of the sample variance. The method contains no check and no raise
site; it always produces the quotient (in IEEE arithmetic a zero standard
deviation yields `±inf` or `NaN`; over `ℝ` the quotient is likewise a plain
value, never an error). -/
noncomputable def computeSharpe (rs : List ℚ) (riskFreeRate : ℚ) :
    Except RiskError ℝ :=
  .ok (((listMean rs - riskFreeRate / 252 : ℚ) : ℝ) / Real.sqrt ((sampleVar rs : ℚ) : ℝ))

/-- Embedding of `StockDataFetcher.__init__`'s weight handling: the guard is
the Python truthiness test `if weights:`, so `None` and the empty list both
select the equal-weight branch `np.ones(N) / N`; only a non-empty weight list
is length-checked against the tickers. The result is the stored weight vector
or the construction-time error. -/
def stockDataFetcherInit (tickers : List String) (weights : Option (List ℚ)) :
    Except RiskError (List ℚ) :=
  let truthy : Bool := match weights with
    | some ws => !ws.isEmpty
    | none => false
  if truthy then
    let ws := weights.getD []
    if ws.length ≠ tickers.length then .error .configurationError
    else .ok ws
  else .ok (List.replicate tickers.length ((1 : ℚ) / (tickers.length : ℚ)))

/-- Running product `acc * Π (1 + r)` over a list of returns, emitting each
prefix product: models `(1 + rs).cumprod()` when started with `acc = 1`. -/
def cumprodAux (acc : ℚ) : List ℚ → List ℚ
  | [] => []
  | r :: rest => (acc * (1 + r)) :: cumprodAux (acc * (1 + r)) rest

/-- Cumulative growth curve `(1 + rs).cumprod()` of `compute_max_drawdown`. -/
def cumprodList (rs : List ℚ) : List ℚ := cumprodAux 1 rs

/-- Running maximum continuing from `acc`, emitting each prefix maximum. -/
def cummaxAux (acc : ℚ) : List ℚ → List ℚ
  | [] => []
  | x :: rest => (max acc x) :: cummaxAux (max acc x) rest

/-- Running maximum `xs.cummax()` of a series. -/
def cummaxList : List ℚ → List ℚ
  | [] => []
  | x :: rest => x :: cummaxAux x rest

/-- Minimum of a series as `pandas.Series.min` on a non-empty series (the
empty case, where pandas yields `NaN`, is given the placeholder `0`). -/
def listMin : List ℚ → ℚ
  | [] => 0
  | x :: rest => rest.foldl min x

/-- Embedding of `RiskMetrics.compute_max_drawdown`:
`cum = (1 + rs).cumprod()`, `rollingMax = cum.cummax()`,
`drawdown = (cum - rollingMax) / rollingMax`, result `drawdown.min()`. -/
def computeMaxDrawdown (rs : List ℚ) : ℚ :=
  let cum := cumprodList rs
  let rollingMax := cummaxList cum
  let drawdown := List.zipWith (fun c m => (c - m) / m) cum rollingMax
  listMin drawdown

/-- Simple return `(cur - prev) / prev` of one table cell, defined only when
both consecutive prices are present (`pct_change` with `fill_method=None`). -/
def pctChangeCell (prev cur : Option ℚ) : Option ℚ :=
  prev.bind (fun x => cur.map (fun y => (y - x) / x))

/-- Cellwise simple returns of one table row from the previous row. -/
def pctChangeRow (prev cur : List (Option ℚ)) : List (Option ℚ) :=
  List.zipWith pctChangeCell prev cur

/-- Whole-table `DataFrame.pct_change()`: the first row becomes all-`NaN`, and
each later row holds the cellwise returns from its predecessor row. -/
def pctChangeTable (rows : List (Nat × List (Option ℚ))) :
    List (Nat × List (Option ℚ)) :=
  match rows with
  | [] => []
  | r0 :: _ =>
    (r0.1, r0.2.map (fun _ => (none : Option ℚ))) ::
      (rows.zip rows.tail).map (fun pc => (pc.2.1, pctChangeRow pc.1.2 pc.2.2))

/-- Extraction of a fully-present row: `some` of the values when every cell is
present, `none` when any cell is `NaN` (the row test of `DataFrame.dropna()`,
whose default `how="any"` drops a row on any missing cell). -/
def seqRow : List (Option ℚ) → Option (List ℚ)
  | [] => some []
  | none :: _ => none
  | some x :: rest => (seqRow rest).map (fun vs => x :: vs)

/-- Embedding of `StockDataFetcher.compute_daily_returns` on the stored price
table: `data.pct_change().dropna()` — cellwise simple returns, then removal of
every row containing at least one `NaN` cell. -/
def computeDailyReturns (rows : List (Nat × List (Option ℚ))) :
    List (Nat × List ℚ) :=
  (pctChangeTable rows).filterMap (fun row => (seqRow row.2).map (fun vs => (row.1, vs)))

/-- Running product over a date-indexed series, keeping each date with its
prefix product: models `(1 + rs).cumprod()` on a pandas Series. -/
def cumprodSeriesAux (acc : ℚ) : List (Nat × ℚ) → List (Nat × ℚ)
  | [] => []
  | (d, r) :: rest => (d, acc * (1 + r)) :: cumprodSeriesAux (acc * (1 + r)) rest

/-- Embedding of `StockDataFetcher.compute_cumulative_returns` applied to a
portfolio return series: `(1 + portfolio_returns).cumprod()`. -/
def computeCumulativeReturns (rs : List (Nat × ℚ)) : List (Nat × ℚ) :=
  cumprodSeriesAux 1 rs

/-- Date alignment of a per-asset return table with the portfolio series,
modelling `pd.concat([asset_returns_df, portfolio], axis=1).dropna()`: keep
the dates at which every asset cell is present and the portfolio has a value,
pairing the asset row with the portfolio value. -/
def alignTableSeries (table : List (Nat × List (Option ℚ))) (p : List (Nat × ℚ)) :
    List (List ℚ × ℚ) :=
  table.filterMap (fun row =>
    match seqRow row.2, lookupDate p row.1 with
    | some vs, some pv => some (vs, pv)
    | _, _ => none)

/-- Per-asset betas `aligned.cov().iloc[:-1, -1] / aligned.var().iloc[-1]` of
`compute_marginal_var`: for each of the `m` asset columns, the pandas sample
covariance (divisor `N - 1`) of the asset column with the portfolio column,
divided by the pandas sample variance (divisor `N - 1`) of the portfolio
column. -/
def assetBetas (aligned : List (List ℚ × ℚ)) (m : ℕ) : List ℚ :=
  let port := aligned.map Prod.snd
  (List.range m).map (fun j =>
    sampleCov (aligned.map (fun r => r.1.getD j 0)) port / sampleVar port)

/-- Embedding of `RiskMetrics.compute_marginal_var`: first the raw-shape check
`asset_returns_df.shape[0] != len(self.portfolio_returns)` (raising the
length-mismatch error), then date alignment, per-asset betas, and the scaling
of each beta by `compute_var()` of the stored portfolio series at the default
confidence level `0.95`. -/
def computeMarginalVar (p : List (Nat × ℚ)) (table : List (Nat × List (Option ℚ))) :
    Except RiskError (List ℚ) :=
  if table.length ≠ p.length then .error .lengthMismatch
  else
    let aligned := alignTableSeries table p
    let m := (table.head?.map (fun r => r.2.length)).getD 0
    let betas := assetBetas aligned m
    match computeVar (p.map Prod.snd) (95/100) with
    | .error e => .error e
    | .ok v => .ok (betas.map (fun beta => beta * v))

/-! ### Helper lemmas -/

/-- Inserting the repeated value into a constant list yields a constant list. -/
theorem insertAsc_replicate (k : ℕ) (r : ℚ) :
    insertAsc r (List.replicate k r) = List.replicate (k + 1) r := by
  cases k with
  | zero => simp [insertAsc]
  | succ m => simp [List.replicate_succ, insertAsc]

/-- Sorting a constant list is the identity. -/
theorem sortAsc_replicate (n : ℕ) (r : ℚ) :
    sortAsc (List.replicate n r) = List.replicate n r := by
  induction n with
  | zero => simp [sortAsc]
  | succ m ih =>
    rw [List.replicate_succ, sortAsc, ih, insertAsc_replicate]
    exact List.replicate_succ r m

/-- In-bounds `getD` on a constant list returns the repeated value. -/
theorem getD_replicate (n j : ℕ) (r d : ℚ) (h : j < n) :
    (List.replicate n r).getD j d = r := by
  rw [List.getD_eq_getElem _ _ (by simpa using h)]
  simp

/-- Membership in a `zipWith` comes from a member of each input list. -/
theorem mem_zipWith_pair {f : ℚ → ℚ → ℚ} :
    ∀ {l1 l2 : List ℚ} {x : ℚ}, x ∈ List.zipWith f l1 l2 →
      ∃ a ∈ l1, ∃ b ∈ l2, x = f a b := by
  intro l1
  induction l1 with
  | nil => intro l2 x hx; simp at hx
  | cons a as ih =>
    intro l2 x hx
    cases l2 with
    | nil => simp at hx
    | cons b bs =>
      rw [List.zipWith_cons_cons, List.mem_cons] at hx
      rcases hx with rfl | hx
      · exact ⟨a, List.mem_cons_self a as, b, List.mem_cons_self b bs, rfl⟩
      · obtain ⟨a', ha', b', hb', rfl⟩ := ih hx
        exact ⟨a', List.mem_cons_of_mem _ ha', b', List.mem_cons_of_mem _ hb', rfl⟩

/-- Folding `min` never exceeds the initial accumulator. -/
theorem foldl_min_le_init : ∀ (l : List ℚ) (a : ℚ), l.foldl min a ≤ a := by
  intro l
  induction l with
  | nil => intro a; simp
  | cons x xs ih =>
    intro a
    calc (x :: xs).foldl min a = xs.foldl min (min a x) := rfl
    _ ≤ min a x := ih _
    _ ≤ a := min_le_left _ _

/-- A strict lower bound of the accumulator and of all elements bounds the fold. -/
theorem lt_foldl_min (b : ℚ) : ∀ (l : List ℚ) (a : ℚ), b < a → (∀ x ∈ l, b < x) →
    b < l.foldl min a := by
  intro l
  induction l with
  | nil => intro a ha _; simpa using ha
  | cons x xs ih =>
    intro a ha hall
    have hx : b < x := hall x (List.mem_cons_self x xs)
    exact ih (min a x) (lt_min ha hx) (fun y hy => hall y (List.mem_cons_of_mem _ hy))

/-- Every prefix product of a positive start and factors `1 + r` with `r > -1`
is positive. -/
theorem cumprodAux_pos : ∀ (l : List ℚ) (acc : ℚ), 0 < acc → (∀ r ∈ l, -1 < r) →
    ∀ x ∈ cumprodAux acc l, 0 < x := by
  intro l
  induction l with
  | nil => intro acc _ _ x hx; simp [cumprodAux] at hx
  | cons r rest ih =>
    intro acc hacc hall x hx
    have hr : -1 < r := hall r (List.mem_cons_self r rest)
    have hpos : 0 < acc * (1 + r) := mul_pos hacc (by linarith)
    rw [cumprodAux, List.mem_cons] at hx
    rcases hx with rfl | hx
    · exact hpos
    · exact ih _ hpos (fun r' hr' => hall r' (List.mem_cons_of_mem _ hr')) x hx

/-- Every running maximum continuing from a positive start over positive
elements is positive. -/
theorem cummaxAux_pos : ∀ (l : List ℚ) (acc : ℚ), 0 < acc → (∀ x ∈ l, 0 < x) →
    ∀ y ∈ cummaxAux acc l, 0 < y := by
  intro l
  induction l with
  | nil => intro acc _ _ y hy; simp [cummaxAux] at hy
  | cons x rest ih =>
    intro acc hacc hall y hy
    have hmax : 0 < max acc x := lt_of_lt_of_le hacc (le_max_left _ _)
    rw [cummaxAux, List.mem_cons] at hy
    rcases hy with rfl | hy
    · exact hmax
    · exact ih _ hmax (fun x' hx' => hall x' (List.mem_cons_of_mem _ hx')) y hy

/-- Row extraction succeeds exactly when every cell of the row is present. -/
theorem seqRow_isSome : ∀ (l : List (Option ℚ)),
    (seqRow l).isSome = l.all Option.isSome := by
  intro l
  induction l with
  | nil => rfl
  | cons c rest ih =>
    cases c with
    | none => simp [seqRow]
    | some x => simp [seqRow, ih]

/-- Linear-interpolation percentile of a constant sample is the constant, for
any in-range percentile rank. -/
theorem percentileLinear_replicate (n : ℕ) (r q : ℚ) (hn : 0 < n)
    (hq0 : 0 ≤ q) (hq1 : q ≤ 100) :
    percentileLinear (List.replicate n r) q = r := by
  have h1 : (1 : ℚ) ≤ (n : ℚ) := by exact_mod_cast hn
  have hne : ¬ (n = 0) := by omega
  simp only [percentileLinear]
  rw [sortAsc_replicate, List.length_replicate, if_neg hne]
  have hh_le : ((n : ℚ) - 1) * q / 100 ≤ (n : ℚ) - 1 := by
    rw [div_le_iff₀ (by norm_num : (0:ℚ) < 100)]
    nlinarith
  have hfloor_le : ⌊((n : ℚ) - 1) * q / 100⌋ ≤ (n : ℤ) - 1 := by
    have hcast : (((n : ℤ) - 1 : ℤ) : ℚ) = (n : ℚ) - 1 := by push_cast; ring
    calc ⌊((n : ℚ) - 1) * q / 100⌋ ≤ ⌊((n : ℚ) - 1)⌋ := Int.floor_le_floor hh_le
    _ = (n : ℤ) - 1 := by rw [← hcast, Int.floor_intCast]
  have hi_lt : (⌊((n : ℚ) - 1) * q / 100⌋.toNat) < n := by omega
  have hi2_lt : min (⌊((n : ℚ) - 1) * q / 100⌋.toNat + 1) (n - 1) < n := by omega
  rw [getD_replicate n _ r 0 hi_lt, getD_replicate n _ r 0 hi2_lt]
  ring

/-- C8: `compute_var` on a series of `n` identical returns `r` yields `r` for
every confidence level strictly between 0 and 1: the sorted sample is
constant, so the interpolated percentile is `r` at every in-range rank. -/
theorem computeVar_constant_series (n : ℕ) (r c : ℚ) (hn : 0 < n)
    (hc0 : 0 < c) (hc1 : c < 1) :
    computeVar (List.replicate n r) c = .ok r := by
  have hne : (List.replicate n r).isEmpty = false := by
    cases n with
    | zero => omega
    | succ m => simp [List.replicate_succ]
  simp only [computeVar, hne, Bool.false_eq_true, if_false]
  rw [percentileLinear_replicate n r ((1 - c) * 100) hn (by nlinarith) (by nlinarith)]

/-- Witness for C8 at `n = 3`, `r = 7/100`, `c = 95/100`. -/
theorem computeVar_constant_series_witness :
    ((0 : ℕ) < 3 ∧ (0 : ℚ) < 95/100 ∧ (95 : ℚ)/100 < 1) ∧
    computeVar (List.replicate 3 (7/100)) (95/100) = .ok (7/100) :=
  ⟨⟨by norm_num, by norm_num, by norm_num⟩,
    computeVar_constant_series 3 (7/100) (95/100) (by norm_num) (by norm_num)
      (by norm_num)⟩

/-- C9: `compute_marginal_var` yields the length-mismatch error exactly when
the raw per-asset table's row count differs from the raw stored portfolio
length; the check precedes alignment, and no later step produces that error. -/
theorem computeMarginalVar_lengthMismatch_iff (p : List (Nat × ℚ))
    (table : List (Nat × List (Option ℚ))) :
    (computeMarginalVar p table = .error .lengthMismatch) ↔
      table.length ≠ p.length := by
  by_cases hlen : table.length = p.length
  · by_cases he : (p.map Prod.snd).isEmpty
    · simp [computeMarginalVar, computeVar, hlen, he]
    · simp [computeMarginalVar, computeVar, hlen, he]
  · simp [computeMarginalVar, hlen]

/-- C10: constructing with a non-empty ticker list and an explicit empty
weight list succeeds, stores the equal weights `1/N`, and agrees with the
construction that passes no weight list at all (Python truthiness treats `[]`
like `None`). -/
theorem stockDataFetcherInit_empty_weights (tickers : List String)
    (h : tickers ≠ []) :
    stockDataFetcherInit tickers (some []) =
      .ok (List.replicate tickers.length ((1 : ℚ) / (tickers.length : ℚ))) ∧
    stockDataFetcherInit tickers (some []) = stockDataFetcherInit tickers none := by
  constructor <;> simp [stockDataFetcherInit]

/-- Witness for C10 on the two-ticker list. -/
theorem stockDataFetcherInit_empty_weights_witness :
    (["AAA", "BBB"] : List String) ≠ [] ∧
    (stockDataFetcherInit ["AAA", "BBB"] (some []) =
        .ok (List.replicate (["AAA", "BBB"] : List String).length
          ((1 : ℚ) / (((["AAA", "BBB"] : List String).length : ℕ) : ℚ))) ∧
      stockDataFetcherInit ["AAA", "BBB"] (some []) =
        stockDataFetcherInit ["AAA", "BBB"] none) :=
  ⟨by simp, stockDataFetcherInit_empty_weights ["AAA", "BBB"] (by simp)⟩

/-- Counterexample to C4 as stated: the empty weight vector, whose length 0
differs from the ticker count 2, does not raise the configuration error; it
is treated as absent and equal weights are stored. -/
theorem stockDataFetcherInit_empty_weights_counterexample :
    stockDataFetcherInit ["AAA", "BBB"] (some []) = .ok [1/2, 1/2] ∧
    stockDataFetcherInit ["AAA", "BBB"] (some []) ≠ .error .configurationError := by
  constructor
  · norm_num [stockDataFetcherInit, List.replicate]
  · simp [stockDataFetcherInit]

/-- C4 (amended): a non-empty explicit weight vector whose length differs from
the ticker count makes construction fail with the configuration error. -/
theorem stockDataFetcherInit_weight_mismatch (tickers : List String)
    (ws : List ℚ) (hne : ws ≠ []) (hlen : ws.length ≠ tickers.length) :
    stockDataFetcherInit tickers (some ws) = .error .configurationError := by
  have hw : ws.isEmpty = false := by simp [hne]
  simp [stockDataFetcherInit, hw, hlen]

/-- Witness for the amended C4 with one weight against two tickers. -/
theorem stockDataFetcherInit_weight_mismatch_witness :
    (([1] : List ℚ) ≠ [] ∧
      ([1] : List ℚ).length ≠ (["AAA", "BBB"] : List String).length) ∧
    stockDataFetcherInit ["AAA", "BBB"] (some [1]) = .error .configurationError :=
  ⟨⟨by simp, by simp⟩,
    stockDataFetcherInit_weight_mismatch ["AAA", "BBB"] [1] (by simp) (by simp)⟩

/-- Counterexample to C3 as stated: a three-observation series of identical
returns has zero sample variance (hence zero standard deviation), yet
`compute_sharpe_ratio` returns a value rather than any error. -/
theorem computeSharpe_zero_std_counterexample :
    sampleVar (List.replicate 3 (1/100)) = 0 ∧
    (computeSharpe (List.replicate 3 (1/100)) (2/100)).isOk = true := by
  refine ⟨?_, rfl⟩
  norm_num [sampleVar, listMean, List.replicate]

/-- C3 (amended): `compute_sharpe_ratio` contains no zero-variance check; for
every series of zero sample variance (zero standard deviation) it still
returns a non-error value — the quotient of the division, never the
insufficient-data error named by the specification. -/
theorem computeSharpe_no_zero_std_check (rs : List ℚ) (riskFreeRate : ℚ)
    (h : sampleVar rs = 0) :
    (computeSharpe rs riskFreeRate).isOk = true := rfl

/-- Witness for the amended C3 on a two-observation constant series. -/
theorem computeSharpe_no_zero_std_check_witness :
    sampleVar (List.replicate 2 (1/10)) = 0 ∧
    (computeSharpe (List.replicate 2 (1/10)) (2/100)).isOk = true :=
  ⟨by norm_num [sampleVar, listMean, List.replicate],
    computeSharpe_no_zero_std_check (List.replicate 2 (1/10)) (2/100)
      (by norm_num [sampleVar, listMean, List.replicate])⟩

/-- C1, evaluated at a concrete aligned pair: `compute_beta` divides the
sample covariance (divisor `N - 1`, the `np.cov` default) by the population
variance (divisor `N`, the `np.var` default) and returns 2 on a two-point
series against itself, while the population-covariance-over-population-
variance ratio stated by the spec is 1; the per-asset betas of
`compute_marginal_var` (sample/sample, pandas defaults) do equal the
population ratio. -/
theorem computeBeta_mixed_estimators :
    computeBeta [(0, 1/10), (1, 1/5)] (some [(0, 1/10), (1, 1/5)]) = .ok 2 ∧
    popCov [1/10, 1/5] [1/10, 1/5] / popVar [1/10, 1/5] = 1 ∧
    assetBetas [([1/10], 1/10), ([1/5], 1/5)] 1 =
      [popCov [1/10, 1/5] [1/10, 1/5] / popVar [1/10, 1/5]] := by
  refine ⟨?_, ?_, ?_⟩
  · simp [computeBeta, alignSeries, lookupDate, sampleCov, popVar, listMean]
    norm_num
  · norm_num [popCov, popVar, listMean]
  · simp [assetBetas, List.range_succ, sampleCov, sampleVar, popCov, popVar,
      listMean]
    norm_num

/-- C2: beta of a series against itself is not 1; it is `N/(N-1)` — 2 for a
two-observation series, 3/2 for a three-observation series — because the
sample covariance is divided by the population variance. -/
theorem computeBeta_self_not_one :
    computeBeta [(0, 1/10), (1, 1/5)] (some [(0, 1/10), (1, 1/5)]) = .ok 2 ∧
    computeBeta [(0, 1/10), (1, 1/5), (2, 3/10)]
        (some [(0, 1/10), (1, 1/5), (2, 3/10)]) = .ok (3/2) ∧
    (2 : ℚ) ≠ 1 ∧ (3/2 : ℚ) ≠ 1 := by
  refine ⟨?_, ?_, by norm_num, by norm_num⟩
  · simp [computeBeta, alignSeries, lookupDate, sampleCov, popVar, listMean]
    norm_num
  · simp [computeBeta, alignSeries, lookupDate, sampleCov, popVar, listMean]
    norm_num

/-- Date keys survive the cumulative product unchanged. -/
theorem cumprodSeriesAux_map_fst (acc : ℚ) (rs : List (Nat × ℚ)) :
    (cumprodSeriesAux acc rs).map Prod.fst = rs.map Prod.fst := by
  induction rs generalizing acc with
  | nil => rfl
  | cons hd tl ih =>
    obtain ⟨d, r⟩ := hd
    simp only [cumprodSeriesAux, List.map_cons, ih]

/-- Head of the running product over a non-empty series. -/
theorem cumprodSeriesAux_head (acc : ℚ) (d : Nat) (r : ℚ)
    (rest : List (Nat × ℚ)) :
    ((cumprodSeriesAux acc ((d, r) :: rest)).getD 0 (0, 0)).2 = acc * (1 + r) := rfl

/-- Step relation of the running product over a series. -/
theorem cumprodSeriesAux_recurrence (rs : List (Nat × ℚ)) :
    ∀ (acc : ℚ) (t : ℕ), t + 1 < rs.length →
      ((cumprodSeriesAux acc rs).getD (t + 1) (0, 0)).2 =
        ((cumprodSeriesAux acc rs).getD t (0, 0)).2 *
          (1 + (rs.getD (t + 1) (0, 0)).2) := by
  induction rs with
  | nil => intro acc t ht; simp at ht
  | cons hd tl ih =>
    obtain ⟨d, r⟩ := hd
    intro acc t ht
    cases t with
    | zero =>
      cases tl with
      | nil => simp at ht
      | cons hd2 tl2 =>
        obtain ⟨d2, r2⟩ := hd2
        rfl
    | succ s =>
      have hs : s + 1 < tl.length := by simpa using ht
      simpa [cumprodSeriesAux, List.getD_cons_succ] using ih (acc * (1 + r)) s hs

/-- C6: the cumulative series has the same length and the same date keys as
the return series, its first value is `1 + r[0]`, and every later value obeys
`c[t] = c[t-1] * (1 + r[t])`. -/
theorem computeCumulativeReturns_spec (rs : List (Nat × ℚ)) :
    (computeCumulativeReturns rs).length = rs.length ∧
    (computeCumulativeReturns rs).map Prod.fst = rs.map Prod.fst ∧
    (0 < rs.length →
      ((computeCumulativeReturns rs).getD 0 (0, 0)).2 =
        1 + (rs.getD 0 (0, 0)).2) ∧
    ∀ t, t + 1 < rs.length →
      ((computeCumulativeReturns rs).getD (t + 1) (0, 0)).2 =
        ((computeCumulativeReturns rs).getD t (0, 0)).2 *
          (1 + (rs.getD (t + 1) (0, 0)).2) := by
  refine ⟨?_, cumprodSeriesAux_map_fst 1 rs, ?_, ?_⟩
  · have h2 := congrArg List.length (cumprodSeriesAux_map_fst 1 rs)
    simpa [computeCumulativeReturns] using h2
  · intro h
    cases rs with
    | nil => simp at h
    | cons hd tl =>
      obtain ⟨d, r⟩ := hd
      simpa [computeCumulativeReturns, one_mul] using cumprodSeriesAux_head 1 d r tl
  · intro t ht
    exact cumprodSeriesAux_recurrence rs 1 t ht

/-- Witness for C6 on a concrete two-date series. -/
theorem computeCumulativeReturns_spec_witness :
    (0 < ([(0, 1/10), (1, 1/5)] : List (Nat × ℚ)).length ∧
      0 + 1 < ([(0, 1/10), (1, 1/5)] : List (Nat × ℚ)).length) ∧
    ((computeCumulativeReturns [(0, 1/10), (1, 1/5)]).getD 0 (0, 0)).2 =
      1 + (([(0, 1/10), (1, 1/5)] : List (Nat × ℚ)).getD 0 (0, 0)).2 ∧
    ((computeCumulativeReturns [(0, 1/10), (1, 1/5)]).getD (0 + 1) (0, 0)).2 =
      ((computeCumulativeReturns [(0, 1/10), (1, 1/5)]).getD 0 (0, 0)).2 *
        (1 + (([(0, 1/10), (1, 1/5)] : List (Nat × ℚ)).getD (0 + 1) (0, 0)).2) :=
  ⟨⟨by norm_num, by norm_num⟩,
    (computeCumulativeReturns_spec _).2.2.1 (by norm_num),
    (computeCumulativeReturns_spec _).2.2.2 0 (by norm_num)⟩

/-- Counterexample to C7 as stated: with a portfolio return below -1 the
cumulative curve goes negative and the reported drawdown is -3, outside
[-1, 0]. -/
theorem computeMaxDrawdown_counterexample :
    computeMaxDrawdown [1, -3] = -3 ∧ computeMaxDrawdown [1, -3] < -1 := by
  have hval : computeMaxDrawdown [1, -3] = -3 := by
    simp [computeMaxDrawdown, cumprodList, cumprodAux, cummaxList, cummaxAux,
      listMin]
    norm_num
  exact ⟨hval, by rw [hval]; norm_num⟩

/-- C7 (amended): for every non-empty return series whose entries all exceed
-1 (as holds for returns derived from positive prices under fully-invested
non-negative weights), the maximum drawdown lies in [-1, 0]. -/
theorem computeMaxDrawdown_bounds (rs : List ℚ) (hne : rs ≠ [])
    (hgt : ∀ r ∈ rs, -1 < r) :
    -1 ≤ computeMaxDrawdown rs ∧ computeMaxDrawdown rs ≤ 0 := by
  obtain ⟨r, rest, rfl⟩ := List.exists_cons_of_ne_nil hne
  have hr : -1 < r := hgt r (List.mem_cons_self r rest)
  have hc0 : (0 : ℚ) < 1 * (1 + r) := by nlinarith
  have hunfold : computeMaxDrawdown (r :: rest) =
      (List.zipWith (fun c m => (c - m) / m) (cumprodAux (1 * (1 + r)) rest)
        (cummaxAux (1 * (1 + r)) (cumprodAux (1 * (1 + r)) rest))).foldl min 0 := by
    simp only [computeMaxDrawdown, cumprodList, cumprodAux, cummaxList,
      List.zipWith_cons_cons, sub_self, zero_div, listMin]
  rw [hunfold]
  have hctpos : ∀ x ∈ cumprodAux (1 * (1 + r)) rest, 0 < x :=
    cumprodAux_pos rest _ hc0 (fun r' hr' => hgt r' (List.mem_cons_of_mem _ hr'))
  have hmtpos : ∀ y ∈ cummaxAux (1 * (1 + r)) (cumprodAux (1 * (1 + r)) rest),
      0 < y := cummaxAux_pos _ _ hc0 hctpos
  have hddgt : ∀ x ∈ List.zipWith (fun c m => (c - m) / m)
      (cumprodAux (1 * (1 + r)) rest)
      (cummaxAux (1 * (1 + r)) (cumprodAux (1 * (1 + r)) rest)), -1 < x := by
    intro x hx
    obtain ⟨c, hc, m, hm, rfl⟩ := mem_zipWith_pair hx
    have hcpos := hctpos c hc
    have hmpos := hmtpos m hm
    have heq : (c - m) / m = c / m - 1 := by
      rw [← div_sub_div_same, div_self (ne_of_gt hmpos)]
    have hq : 0 < c / m := div_pos hcpos hmpos
    rw [heq]
    linarith
  constructor
  · exact le_of_lt (lt_foldl_min (-1) _ 0 (by norm_num) hddgt)
  · exact foldl_min_le_init _ 0

/-- Rows of the pct-change table of a non-empty price table: the all-missing
leading row, and one row per consecutive date pair holding the cellwise
returns. -/
theorem mem_pctChangeTable_cons_iff (r0 : Nat × List (Option ℚ))
    (rtail : List (Nat × List (Option ℚ))) (q : Nat × List (Option ℚ)) :
    q ∈ pctChangeTable (r0 :: rtail) ↔
      (q = (r0.1, r0.2.map (fun _ => (none : Option ℚ))) ∨
       ∃ j, j + 1 < (r0 :: rtail).length ∧
         q = (((r0 :: rtail).getD (j + 1) (0, [])).1,
              pctChangeRow ((r0 :: rtail).getD j (0, [])).2
                ((r0 :: rtail).getD (j + 1) (0, [])).2)) := by
  simp only [pctChangeTable, List.tail_cons, List.mem_cons]
  apply or_congr_right
  rw [List.mem_map]
  constructor
  · rintro ⟨pc, hpc, rfl⟩
    rw [List.mem_iff_getElem] at hpc
    obtain ⟨j, hj, hget⟩ := hpc
    have hjt : j < rtail.length := by
      rw [List.length_zip] at hj
      exact lt_of_lt_of_le hj (min_le_right _ _)
    have hjc : j < (r0 :: rtail).length := by
      simp only [List.length_cons]; omega
    have hjlen : j + 1 < (r0 :: rtail).length := by
      simp only [List.length_cons]; omega
    refine ⟨j, hjlen, ?_⟩
    have hpc' : pc = ((r0 :: rtail)[j], rtail[j]) := by
      rw [← hget, List.getElem_zip]
    subst hpc'
    have e1 : (r0 :: rtail).getD j (0, []) = (r0 :: rtail)[j] :=
      List.getD_eq_getElem _ _ hjc
    have e2 : (r0 :: rtail).getD (j + 1) (0, []) = rtail[j] := by
      rw [List.getD_eq_getElem _ _ hjlen, List.getElem_cons_succ]
    rw [e1, e2]
  · rintro ⟨j, hj, rfl⟩
    have hjc : j < (r0 :: rtail).length := by
      simp only [List.length_cons] at hj ⊢; omega
    have hjt : j < rtail.length := by
      simp only [List.length_cons] at hj; omega
    have hjz : j < ((r0 :: rtail).zip rtail).length := by
      rw [List.length_zip]
      simp only [List.length_cons, lt_min_iff]
      constructor <;> omega
    refine ⟨((r0 :: rtail)[j], rtail[j]), ?_, ?_⟩
    · rw [List.mem_iff_getElem]
      exact ⟨j, hjz, by rw [List.getElem_zip]⟩
    · have e1 : (r0 :: rtail).getD j (0, []) = (r0 :: rtail)[j] :=
        List.getD_eq_getElem _ _ hjc
      have e2 : (r0 :: rtail).getD (j + 1) (0, []) = rtail[j] := by
        rw [List.getD_eq_getElem _ _ hj, List.getElem_cons_succ]
      rw [e1, e2]

/-- C5 (amended): under unique date keys, the return row at the `(i+1)`-st
date appears in `compute_daily_returns` exactly when every asset's return at
that date is defined; in particular an asset's individually well-defined
return is dropped whenever any other asset's price at either of the two
consecutive dates is missing, because `dropna()` removes the whole row. -/
theorem computeDailyReturns_row_presence (rows : List (Nat × List (Option ℚ)))
    (hnd : (rows.map Prod.fst).Nodup) (i : ℕ) (hi : i + 1 < rows.length) :
    ((rows.getD (i + 1) (0, [])).1 ∈ (computeDailyReturns rows).map Prod.fst) ↔
      (pctChangeRow (rows.getD i (0, [])).2 (rows.getD (i + 1) (0, [])).2).all
        Option.isSome = true := by
  cases rows with
  | nil => simp at hi
  | cons r0 rtail =>
    have hlen : i + 1 < (r0 :: rtail).length := hi
    constructor
    · intro hmem
      rw [List.mem_map] at hmem
      obtain ⟨q, hq, hfst⟩ := hmem
      rw [computeDailyReturns, List.mem_filterMap] at hq
      obtain ⟨row, hrow, hg⟩ := hq
      rw [Option.map_eq_some'] at hg
      obtain ⟨vs, hseq, hq'⟩ := hg
      rw [mem_pctChangeTable_cons_iff] at hrow
      rcases hrow with hhead | ⟨j, hj, hrow⟩
      · exfalso
        have hq1 : q.1 = r0.1 := by rw [← hq']; rw [hhead]
        have hm0 : 0 < ((r0 :: rtail).map Prod.fst).length := by simp
        have hmi : i + 1 < ((r0 :: rtail).map Prod.fst).length := by
          simpa using hlen
        have hdates : ((r0 :: rtail).map Prod.fst)[0] =
            ((r0 :: rtail).map Prod.fst)[i + 1] := by
          rw [List.getElem_map, List.getElem_map]
          have : ((r0 :: rtail).getD (i + 1) (0, [])).1 =
              ((r0 :: rtail)[i + 1]).1 := by
            rw [List.getD_eq_getElem _ _ hlen]
          rw [← this, ← hfst, hq1]
          rfl
        have := (hnd.getElem_inj_iff).mp hdates
        omega
      · have hq1 : q.1 = ((r0 :: rtail).getD (j + 1) (0, [])).1 := by
          rw [← hq']; rw [hrow]
        have hmj : j + 1 < ((r0 :: rtail).map Prod.fst).length := by
          simpa using hj
        have hmi : i + 1 < ((r0 :: rtail).map Prod.fst).length := by
          simpa using hlen
        have hdates : ((r0 :: rtail).map Prod.fst)[j + 1] =
            ((r0 :: rtail).map Prod.fst)[i + 1] := by
          rw [List.getElem_map, List.getElem_map]
          rw [← List.getD_eq_getElem (r0 :: rtail) (0, []) hj,
            ← List.getD_eq_getElem (r0 :: rtail) (0, []) hlen]
          rw [← hq1, hfst]
        have hji : j = i := by
          have := (hnd.getElem_inj_iff).mp hdates
          omega
        subst hji
        rw [hrow] at hseq
        have : (seqRow (pctChangeRow ((r0 :: rtail).getD j (0, [])).2
            ((r0 :: rtail).getD (j + 1) (0, [])).2)).isSome = true := by
          rw [hseq]; rfl
        rwa [seqRow_isSome] at this
    · intro hall
      have hsome : (seqRow (pctChangeRow ((r0 :: rtail).getD i (0, [])).2
          ((r0 :: rtail).getD (i + 1) (0, [])).2)).isSome = true := by
        rw [seqRow_isSome]; exact hall
      obtain ⟨vs, hvs⟩ := Option.isSome_iff_exists.mp hsome
      rw [List.mem_map]
      refine ⟨(((r0 :: rtail).getD (i + 1) (0, [])).1, vs), ?_, rfl⟩
      rw [computeDailyReturns, List.mem_filterMap]
      refine ⟨(((r0 :: rtail).getD (i + 1) (0, [])).1,
        pctChangeRow ((r0 :: rtail).getD i (0, [])).2
          ((r0 :: rtail).getD (i + 1) (0, [])).2), ?_, ?_⟩
      · rw [mem_pctChangeTable_cons_iff]
        exact Or.inr ⟨i, hlen, rfl⟩
      · rw [hvs]
        rfl

/-- Witness for the amended C5: on the three-date two-asset table with one
missing cell, the iff instance at `i = 0` (both sides false: the missing
second-asset price makes the whole date-1 row disappear). -/
theorem computeDailyReturns_row_presence_witness :
    ((([(0, [some 100, some 50]), (1, [some 110, none]),
        (2, [some 121, some 60])] : List (Nat × List (Option ℚ))).map
          Prod.fst).Nodup ∧
      0 + 1 < ([(0, [some 100, some 50]), (1, [some 110, none]),
        (2, [some 121, some 60])] : List (Nat × List (Option ℚ))).length) ∧
    ((([(0, [some 100, some 50]), (1, [some 110, none]),
        (2, [some 121, some 60])] : List (Nat × List (Option ℚ))).getD (0 + 1)
          (0, [])).1 ∈
        (computeDailyReturns [(0, [some 100, some 50]), (1, [some 110, none]),
          (2, [some 121, some 60])]).map Prod.fst ↔
      (pctChangeRow (([(0, [some 100, some 50]), (1, [some 110, none]),
          (2, [some 121, some 60])] : List (Nat × List (Option ℚ))).getD 0
            (0, [])).2
        (([(0, [some 100, some 50]), (1, [some 110, none]),
          (2, [some 121, some 60])] : List (Nat × List (Option ℚ))).getD (0 + 1)
            (0, [])).2).all Option.isSome = true) :=
  ⟨⟨by simp, by simp⟩,
    computeDailyReturns_row_presence
      [(0, [some 100, some 50]), (1, [some 110, none]), (2, [some 121, some 60])]
      (by simp) 0 (by simp)⟩

/-- Counterexample to C5 as stated: in the three-date table the first asset
has prices at dates 0 and 1, so its return 1/10 at date 1 is well-defined,
yet the whole output is empty because the second asset's price at date 1 is
missing (and its date-2 return is likewise undefined). -/
theorem computeDailyReturns_counterexample :
    pctChangeCell (some 100) (some 110) = some (1/10) ∧
    computeDailyReturns [(0, [some 100, some 50]), (1, [some 110, none]),
      (2, [some 121, some 60])] = [] := by
  constructor
  · norm_num [pctChangeCell]
  · simp [computeDailyReturns, pctChangeTable, pctChangeRow, pctChangeCell,
      seqRow]

/-- Witness for the amended C7 on a concrete two-return series. -/
theorem computeMaxDrawdown_bounds_witness :
    (([1/10, -1/20] : List ℚ) ≠ [] ∧
      ∀ r ∈ ([1/10, -1/20] : List ℚ), -1 < r) ∧
    (-1 ≤ computeMaxDrawdown [1/10, -1/20] ∧
      computeMaxDrawdown [1/10, -1/20] ≤ 0) :=
  ⟨⟨by simp, by intro r hr; fin_cases hr <;> norm_num⟩,
    computeMaxDrawdown_bounds [1/10, -1/20] (by simp)
      (by intro r hr; fin_cases hr <;> norm_num)⟩
